import Mathlib

/-!
Verification of the Clara reverse proxy's request-routing and dispatch
engine, shallowly embedded from the Go sources (the current revision of
the program, i.e. the latest snapshot of main.go).  Go strings are
modelled as Lean strings; Go byte lengths as UTF-8 byte sizes; Go maps
built by iterated assignment as last-occurrence lookup over the insertion
list; fallible external collaborators (the YAML parser, URL parser and
file system) as explicit function parameters returning Option or Except.
-/

namespace Clara

/-- Go strings.HasPrefix s p, on the underlying character (hence byte) sequence. -/
def hasPre (s p : String) : Bool := p.data.isPrefixOf s.data

/-- Go strings.HasSuffix s p. -/
def hasSuf (s p : String) : Bool := p.data.isSuffixOf s.data

/-- Go len(s): number of bytes of the UTF-8 encoding. -/
def strLen (s : String) : Nat := s.utf8ByteSize

/-- Go strings.TrimPrefix s p: drop the leading occurrence of p when present. -/
def trimPre (s p : String) : String :=
  if hasPre s p then String.mk (s.data.drop p.data.length) else s

/-- The dispatch target compiled for a route: a single reverse proxy around one
parsed target URL, or a round-robin load balancer around several parsed
target URLs (newRouter, the two handler-construction branches). -/
inductive Handler where
  | single (target : String) : Handler
  | loadBalancer (backends : List String) : Handler
deriving DecidableEq, Repr

/-- Go struct routeHandler: a path, its service name, and the compiled handler. -/
structure routeHandler where
  path : String
  service : String
  handler : Handler
deriving DecidableEq, Repr

/-- Go struct Router: the ordered route table plus the error-page map
(modelled as the association list of its entries). -/
structure Router where
  routes : List routeHandler
  errorPages : List (Nat × String)
deriving DecidableEq, Repr

/-- The prefix-candidate test inside findBestMatch: the declared path ends in
the separator and the request path starts with the declared path.  The current
revision of findBestMatch has no special case for the root path. -/
def isCand (requestPath : String) (r : routeHandler) : Bool :=
  hasSuf r.path "/" && hasPre requestPath r.path

/-- The loop of Router.findBestMatch, with the mutable bestMatch and
bestMatchLen variables as accumulators (bestMatchLen starts at the Go int -1). -/
def findBestMatchAux (requestPath : String) :
    List routeHandler → Option routeHandler → Int → Option routeHandler
  | [], best, _ => best
  | route :: rest, best, bestLen =>
    if route.path = requestPath then some route
    else if isCand requestPath route = true ∧ bestLen < (strLen route.path : Int) then
      findBestMatchAux requestPath rest (some route) (strLen route.path)
    else
      findBestMatchAux requestPath rest best bestLen

/-- Go (r *Router) findBestMatch(requestPath string) *routeHandler. -/
def Router.findBestMatch (r : Router) (requestPath : String) : Option routeHandler :=
  findBestMatchAux requestPath r.routes none (-1)

/-- Once the loop has reached an entry whose path equals the request path, it
returns that entry, whatever the accumulator holds; entries scanned before it
that are not exact matches only ever change the accumulator. -/
lemma findBestMatchAux_exact (q : String) (r : routeHandler) (hr : r.path = q) :
    ∀ (l1 l2 : List routeHandler) (best : Option routeHandler) (len : Int),
      (∀ r1 ∈ l1, r1.path ≠ q) →
      findBestMatchAux q (l1 ++ r :: l2) best len = some r := by
  intro l1
  induction l1 with
  | nil =>
    intro l2 best len _
    simp [findBestMatchAux, hr]
  | cons a l1 ih =>
    intro l2 best len hno
    have ha : a.path ≠ q := hno a (List.mem_cons_self a l1)
    have hrest : ∀ r1 ∈ l1, r1.path ≠ q := fun r1 h1 => hno r1 (List.mem_cons_of_mem a h1)
    simp only [List.cons_append, findBestMatchAux, if_neg ha]
    by_cases hc : isCand q a = true ∧ len < (strLen a.path : Int)
    · rw [if_pos hc]
      exact ih l2 (some a) (strLen a.path) hrest
    · rw [if_neg hc]
      exact ih l2 best len hrest

/-- Claim C1: for every routing table and request path, if some entry's
declared path equals the request path exactly, findBestMatch returns the
first such entry in table order, and that entry wins over every prefix
candidate anywhere in the table (the entries before it, prefix candidates
included, and every entry after it are irrelevant to the result). -/
theorem C1_exact_match_priority (tbl : Router) (q : String)
    (l1 l2 : List routeHandler) (r : routeHandler)
    (hsplit : tbl.routes = l1 ++ r :: l2) (hr : r.path = q)
    (hfirst : ∀ r1 ∈ l1, r1.path ≠ q) :
    tbl.findBestMatch q = some r := by
  unfold Router.findBestMatch
  rw [hsplit]
  exact findBestMatchAux_exact q r hr l1 l2 none (-1) hfirst

/-- Claim C1 witness: in a table where the exact entry for /api/v2/widgets sits
between prefix candidates (a longer one before it and one after it), the exact
entry is returned. -/
theorem C1_exact_match_priority_witness :
    (Router.mk [routeHandler.mk "/api/" "a" (Handler.single "u1"),
        routeHandler.mk "/api/v2/" "b" (Handler.single "u2"),
        routeHandler.mk "/api/v2/widgets" "c" (Handler.single "u3"),
        routeHandler.mk "/api/v2/" "d" (Handler.single "u4")]
      []).findBestMatch "/api/v2/widgets"
      = some (routeHandler.mk "/api/v2/widgets" "c" (Handler.single "u3")) :=
  C1_exact_match_priority _ "/api/v2/widgets"
    [routeHandler.mk "/api/" "a" (Handler.single "u1"),
     routeHandler.mk "/api/v2/" "b" (Handler.single "u2")]
    [routeHandler.mk "/api/v2/" "d" (Handler.single "u4")]
    (routeHandler.mk "/api/v2/widgets" "c" (Handler.single "u3"))
    rfl rfl (by decide)

/-- Invariant of the findBestMatch loop when no entry equals the request path:
the result is either the incoming accumulator (and then no remaining entry is a
prefix candidate longer than the incoming best length), or some entry b of the
remaining list that is a prefix candidate longer than the incoming best length,
strictly longer than every candidate before it and at least as long as every
candidate after it. -/
lemma findBestMatchAux_spec (q : String) :
    ∀ (rts : List routeHandler) (best : Option routeHandler) (len : Int),
      (∀ r ∈ rts, r.path ≠ q) →
      (findBestMatchAux q rts best len = best ∧
        ∀ r ∈ rts, isCand q r = true → (strLen r.path : Int) ≤ len) ∨
      (∃ b l1 l2, findBestMatchAux q rts best len = some b ∧ isCand q b = true ∧
        len < (strLen b.path : Int) ∧ rts = l1 ++ b :: l2 ∧
        (∀ r ∈ l1, isCand q r = true → strLen r.path < strLen b.path) ∧
        (∀ r ∈ l2, isCand q r = true → strLen r.path ≤ strLen b.path)) := by
  intro rts
  induction rts with
  | nil =>
    intro best len _
    left
    refine ⟨rfl, ?_⟩
    intro r hr
    exact absurd hr (List.not_mem_nil r)
  | cons a rest ih =>
    intro best len hno
    have ha : a.path ≠ q := hno a (List.mem_cons_self a rest)
    have hrest : ∀ r ∈ rest, r.path ≠ q := fun r h1 => hno r (List.mem_cons_of_mem a h1)
    simp only [findBestMatchAux, if_neg ha]
    by_cases hc : isCand q a = true ∧ len < (strLen a.path : Int)
    · rw [if_pos hc]
      rcases ih (some a) (strLen a.path) hrest with ⟨heq, hall⟩ | ⟨b, l1, l2, heq, hb, hlt, hsp, h1, h2⟩
      · right
        refine ⟨a, [], rest, heq, hc.1, hc.2, rfl, ?_, ?_⟩
        · intro r hr
          exact absurd hr (List.not_mem_nil r)
        · intro r hr hcr
          exact_mod_cast hall r hr hcr
      · right
        refine ⟨b, a :: l1, l2, heq, hb, lt_trans hc.2 hlt, by rw [hsp, List.cons_append], ?_, h2⟩
        intro r hr hcr
        rcases List.mem_cons.mp hr with h | h
        · subst h
          exact_mod_cast hlt
        · exact h1 r h hcr
    · rw [if_neg hc]
      have hca : isCand q a = true → (strLen a.path : Int) ≤ len := by
        intro h1
        by_contra h2
        exact hc ⟨h1, lt_of_not_ge h2⟩
      rcases ih best len hrest with ⟨heq, hall⟩ | ⟨b, l1, l2, heq, hb, hlt, hsp, h1, h2⟩
      · left
        refine ⟨heq, ?_⟩
        intro r hr hcr
        rcases List.mem_cons.mp hr with h | h
        · subst h; exact hca hcr
        · exact hall r h hcr
      · right
        refine ⟨b, a :: l1, l2, heq, hb, hlt, by rw [hsp, List.cons_append], ?_, h2⟩
        intro r hr hcr
        rcases List.mem_cons.mp hr with h | h
        · subst h
          exact_mod_cast lt_of_le_of_lt (hca hcr) hlt
        · exact h1 r h hcr

/-- Claim C2: when no entry's declared path equals the request path, the
matcher returns a prefix candidate (an entry whose declared path ends with the
separator and, per the current revision of findBestMatch, with no exception
for the root path, is a prefix of the request path) of greatest declared-path
byte length, the first in table order among candidates of that length; it
returns none exactly when no prefix candidate exists; in particular with
entries for /api/ and /api/v2/ both present, in either order, the request path
/api/v2/widgets resolves to the /api/v2/ entry. -/
theorem C2_longest_prefix_wins :
    (∀ (tbl : Router) (q : String), (∀ r ∈ tbl.routes, r.path ≠ q) →
      ∀ b, tbl.findBestMatch q = some b →
        isCand q b = true ∧
        ∃ l1 l2, tbl.routes = l1 ++ b :: l2 ∧
          (∀ r ∈ l1, isCand q r = true → strLen r.path < strLen b.path) ∧
          (∀ r ∈ l2, isCand q r = true → strLen r.path ≤ strLen b.path))
    ∧ (∀ (tbl : Router) (q : String), (∀ r ∈ tbl.routes, r.path ≠ q) →
        tbl.findBestMatch q = none → ∀ r ∈ tbl.routes, isCand q r = false)
    ∧ (Router.mk [routeHandler.mk "/api/" "a" (Handler.single "u1"),
          routeHandler.mk "/api/v2/" "b" (Handler.single "u2")] []).findBestMatch
        "/api/v2/widgets" = some (routeHandler.mk "/api/v2/" "b" (Handler.single "u2"))
    ∧ (Router.mk [routeHandler.mk "/api/v2/" "b" (Handler.single "u2"),
          routeHandler.mk "/api/" "a" (Handler.single "u1")] []).findBestMatch
        "/api/v2/widgets" = some (routeHandler.mk "/api/v2/" "b" (Handler.single "u2")) := by
  refine ⟨?_, ?_, by decide, by decide⟩
  · intro tbl q hno b hb
    rcases findBestMatchAux_spec q tbl.routes none (-1) hno with ⟨heq, _⟩ | ⟨b1, l1, l2, heq, hb1, _, hsp, h1, h2⟩
    · rw [Router.findBestMatch] at hb
      rw [hb] at heq
      exact absurd heq (by simp)
    · rw [Router.findBestMatch] at hb
      rw [hb] at heq
      have hbb : b1 = b := by
        injection heq.symm with h
      subst hbb
      exact ⟨hb1, l1, l2, hsp, h1, h2⟩
  · intro tbl q hno hnone r hr
    rcases findBestMatchAux_spec q tbl.routes none (-1) hno with ⟨_, hall⟩ | ⟨b1, l1, l2, heq, _, _, _, _, _⟩
    · by_contra h1
      have h2 : isCand q r = true := by
        cases h3 : isCand q r
        · exact absurd h3 h1
        · rfl
      have h4 := hall r hr h2
      have h5 : (0 : Int) ≤ (strLen r.path : Int) := Int.natCast_nonneg _
      omega
    · rw [Router.findBestMatch] at hnone
      rw [hnone] at heq
      exact absurd heq.symm (by simp)

/-- Claim C2 witness: the no-exact-match hypothesis discharged on the table
holding /api/ before /api/v2/, with request path /api/v2/widgets: the result
entry is a prefix candidate, maximal and first among equals. -/
theorem C2_longest_prefix_wins_witness :
    isCand "/api/v2/widgets" (routeHandler.mk "/api/v2/" "b" (Handler.single "u2")) = true ∧
    ∃ l1 l2,
      [routeHandler.mk "/api/" "a" (Handler.single "u1"),
        routeHandler.mk "/api/v2/" "b" (Handler.single "u2")] =
        l1 ++ (routeHandler.mk "/api/v2/" "b" (Handler.single "u2")) :: l2 ∧
      (∀ r ∈ l1, isCand "/api/v2/widgets" r = true →
        strLen r.path < strLen (routeHandler.mk "/api/v2/" "b" (Handler.single "u2")).path) ∧
      (∀ r ∈ l2, isCand "/api/v2/widgets" r = true →
        strLen r.path ≤ strLen (routeHandler.mk "/api/v2/" "b" (Handler.single "u2")).path) :=
  C2_longest_prefix_wins.1
    (Router.mk [routeHandler.mk "/api/" "a" (Handler.single "u1"),
      routeHandler.mk "/api/v2/" "b" (Handler.single "u2")] [])
    "/api/v2/widgets" (by decide) _ (by decide)

/-- Once the loop accumulator holds an entry, the loop never returns none. -/
lemma findBestMatchAux_isSome_of_acc (q : String) :
    ∀ (rts : List routeHandler) (b : routeHandler) (len : Int),
      (findBestMatchAux q rts (some b) len).isSome = true := by
  intro rts
  induction rts with
  | nil =>
    intro b len
    rfl
  | cons a rest ih =>
    intro b len
    simp only [findBestMatchAux]
    by_cases he : a.path = q
    · rw [if_pos he]; rfl
    · rw [if_neg he]
      by_cases hc : isCand q a = true ∧ len < (strLen a.path : Int)
      · rw [if_pos hc]; exact ih a (strLen a.path)
      · rw [if_neg hc]; exact ih b len

/-- If some entry of the remaining list either equals the request path or is a
prefix candidate longer than the current best length, the loop returns an
entry. -/
lemma findBestMatchAux_isSome_of_hit (q : String) :
    ∀ (rts : List routeHandler) (best : Option routeHandler) (len : Int) (r : routeHandler),
      r ∈ rts → (r.path = q ∨ (isCand q r = true ∧ len < (strLen r.path : Int))) →
      (findBestMatchAux q rts best len).isSome = true := by
  intro rts
  induction rts with
  | nil =>
    intro best len r hr _
    exact absurd hr (List.not_mem_nil r)
  | cons a rest ih =>
    intro best len r hr hhit
    simp only [findBestMatchAux]
    by_cases he : a.path = q
    · rw [if_pos he]; rfl
    · rw [if_neg he]
      by_cases hc : isCand q a = true ∧ len < (strLen a.path : Int)
      · rw [if_pos hc]
        exact findBestMatchAux_isSome_of_acc q rest a (strLen a.path)
      · rw [if_neg hc]
        rcases List.mem_cons.mp hr with h | h
        · subst h
          rcases hhit with h1 | h1
          · exact absurd h1 he
          · exact absurd h1 hc
        · exact ih best len r h hhit

/-- Claim C3 counterexample: in the current revision of findBestMatch the root
route does participate in prefix matching: a table whose only entry is
declared as / matches the request path /x, which differs from /, through that
entry. -/
theorem C3_root_exclusion_counterexample :
    (Router.mk [routeHandler.mk "/" "a" (Handler.single "u1")] []).findBestMatch "/x"
      = some (routeHandler.mk "/" "a" (Handler.single "u1"))
    ∧ "/x" ≠ "/" := by
  exact ⟨by decide, by decide⟩

/-- Claim C3 as amended: in the current revision of findBestMatch a route
declared as / does participate in prefix matching — it ends with the separator
and is a prefix of every request path that starts with the separator — so a
table containing the root entry matches every such request path (it returns
some entry, never none); the root-path guard exists only in the older revision
of the matching loop. -/
theorem C3_root_participates (tbl : Router) (q : String) (s : String) (h : Handler)
    (hmem : routeHandler.mk "/" s h ∈ tbl.routes) (hq : hasPre q "/" = true) :
    (tbl.findBestMatch q).isSome = true := by
  unfold Router.findBestMatch
  by_cases he : ("/" : String) = q
  · exact findBestMatchAux_isSome_of_hit q tbl.routes none (-1)
      (routeHandler.mk "/" s h) hmem (Or.inl he)
  · refine findBestMatchAux_isSome_of_hit q tbl.routes none (-1)
      (routeHandler.mk "/" s h) hmem (Or.inr ⟨?_, ?_⟩)
    · show (hasSuf "/" "/" && hasPre q "/") = true
      rw [hq]
      rfl
    · show (-1 : Int) < (strLen "/" : Int)
      decide

/-- Claim C3 amended-claim witness: the single-entry root table matches the
request path /x. -/
theorem C3_root_participates_witness :
    ((Router.mk [routeHandler.mk "/" "a" (Handler.single "u1")] []).findBestMatch "/x").isSome
      = true :=
  C3_root_participates _ "/x" "a" (Handler.single "u1") (by decide) (by decide)

/-- The director installed on every proxy by newRouter: after the standard
forwarding rewrite, strip the declared route path as a literal leading
occurrence from the outbound request path, then prepend the separator if the
result does not start with one. -/
def rewritePath (routePath reqPath : String) : String :=
  let targetPath := trimPre reqPath routePath
  if hasPre targetPath "/" then targetPath else "/" ++ targetPath

lemma isPrefixOf_append_self (l m : List Char) : l.isPrefixOf (l ++ m) = true := by
  induction l with
  | nil => simp [List.isPrefixOf]
  | cons a l ih => simp [List.isPrefixOf, ih]

lemma hasPre_append_self (p rest : String) : hasPre (p ++ rest) p = true := by
  unfold hasPre
  rw [String.data_append]
  exact isPrefixOf_append_self p.data rest.data

lemma trimPre_append_self (p rest : String) : trimPre (p ++ rest) p = rest := by
  unfold trimPre
  rw [if_pos (hasPre_append_self p rest), String.data_append, List.drop_left]

lemma hasPre_slash_append (t : String) : hasPre ("/" ++ t) "/" = true := by
  unfold hasPre
  rw [String.data_append]
  show List.isPrefixOf ['/'] ('/' :: t.data) = true
  simp [List.isPrefixOf]

/-- Claim C4: for every declared route path p and request path q that the route
matched (so q is p followed by some rest, the exact match being rest empty),
the director's rewritten outbound path is q with the literal leading p
stripped, with the separator prepended whenever the stripped result does not
begin with one; the result always begins with the separator and is never
empty; stripping /login from the request path /login yields /. -/
theorem C4_director_strip_and_reslash :
    (∀ p rest : String, rewritePath p (p ++ rest) =
      if hasPre rest "/" = true then rest else "/" ++ rest)
    ∧ (∀ p q : String, hasPre (rewritePath p q) "/" = true)
    ∧ (∀ p q : String, rewritePath p q ≠ "")
    ∧ rewritePath "/login" "/login" = "/" := by
  have hslash : ∀ p q : String, hasPre (rewritePath p q) "/" = true := by
    intro p q
    unfold rewritePath
    by_cases h : hasPre (trimPre q p) "/" = true
    · rw [if_pos h]; exact h
    · rw [if_neg h]; exact hasPre_slash_append (trimPre q p)
  refine ⟨?_, hslash, ?_, by decide⟩
  · intro p rest
    unfold rewritePath
    rw [trimPre_append_self]
  · intro p q hempty
    have h1 := hslash p q
    rw [hempty] at h1
    exact absurd h1 (by decide)

/-- Go struct Service: a backend service, either a single host and port or a
list of server URLs for load balancing. -/
structure Service where
  name : String
  host : String
  port : Int
  loadBalancingStrategy : String
  servers : List String
deriving DecidableEq, Repr

/-- Go struct Route: a declared path and the name of the service it targets. -/
structure Route where
  path : String
  service : String
deriving DecidableEq, Repr

/-- Go struct TLS: contact email and domain list for automatic HTTPS. -/
structure TLSConf where
  email : String
  domains : List String
deriving DecidableEq, Repr

/-- Go struct Config: the parsed configuration document. -/
structure Config where
  errorPages : List (Nat × String)
  tls : Option TLSConf
  services : List Service
  routes : List Route
deriving DecidableEq, Repr

/-- The serviceMap built by newRouter: iterated Go map assignment over the
service list, so for a duplicated name the last occurrence wins. -/
def serviceMapLookup (services : List Service) (name : String) : Option Service :=
  (services.filter (fun svc => svc.name == name)).getLast?

/-- The handler newRouter builds for a resolved service: a load balancer over
the parseable server URLs when the servers list is non-empty (dropped when
none of them parses), else a single proxy around http://host:port when the
host is non-empty (dropped when that URL does not parse), else nothing.
url.Parse is an external collaborator, passed in as parseURL. -/
def buildHandler (parseURL : String → Option String) (svc : Service) : Option Handler :=
  if 0 < svc.servers.length then
    let backends := svc.servers.filterMap parseURL
    if 0 < backends.length then some (Handler.loadBalancer backends) else none
  else if svc.host ≠ "" then
    (parseURL ("http://" ++ svc.host ++ ":" ++ toString svc.port)).map Handler.single
  else none

/-- Go (a *App) newRouter(config *Config) *Router: resolve every route's
service name against the service map, skip a route with a warning when the
name is unknown or no handler can be built, and append the surviving routes in
declaration order. -/
def newRouter (parseURL : String → Option String) (config : Config) : Router :=
  Router.mk
    (config.routes.filterMap (fun route =>
      match serviceMapLookup config.services route.service with
      | none => none
      | some svc => (buildHandler parseURL svc).map
          (fun h => routeHandler.mk route.path route.service h)))
    config.errorPages

/-- Claim C8 counterexample: the claim that every route whose service name is
present in the map is still compiled is false: a route referencing a declared
service that has neither servers nor a host is dropped too, so the built table
is empty although the service name resolves. -/
theorem C8_unknown_service_dropped_counterexample :
    (serviceMapLookup [Service.mk "a" "" 0 "" []] "a").isSome = true
    ∧ (newRouter (fun u => some u)
        (Config.mk [] none [Service.mk "a" "" 0 "" []] [Route.mk "/p" "a"])).routes = [] := by
  exact ⟨by decide, by decide⟩

/-- Claim C8 as amended: the table built by newRouter contains no entry for
any route whose service name is absent from the service map — every compiled
entry's service name resolves and stems from a declared route — and every
route whose resolved service yields a dispatch handler (a non-empty servers
list with at least one parseable URL, or failing that a non-empty host whose
http://host:port target parses) is still compiled; only routes with an
unknown service name or no buildable handler are dropped, never the whole
build. -/
theorem C8_unknown_service_dropped (parseURL : String → Option String) (config : Config) :
    (∀ e ∈ (newRouter parseURL config).routes,
      (serviceMapLookup config.services e.service).isSome = true
      ∧ ∃ r ∈ config.routes, r.path = e.path ∧ r.service = e.service)
    ∧ (∀ r ∈ config.routes, ∀ svc h,
        serviceMapLookup config.services r.service = some svc →
        buildHandler parseURL svc = some h →
        routeHandler.mk r.path r.service h ∈ (newRouter parseURL config).routes) := by
  constructor
  · intro e he
    rcases List.mem_filterMap.mp he with ⟨route, hroute, hf⟩
    cases hl : serviceMapLookup config.services route.service with
    | none =>
      rw [hl] at hf
      exact absurd hf (by simp)
    | some svc =>
      rw [hl] at hf
      rcases Option.map_eq_some'.mp hf with ⟨h, _, he2⟩
      refine ⟨?_, route, hroute, ?_, ?_⟩
      · rw [← he2, hl]; rfl
      · rw [← he2]
      · rw [← he2]
  · intro r hr svc h hl hb
    refine List.mem_filterMap.mpr ⟨r, hr, ?_⟩
    rw [hl]
    show Option.map (fun h => routeHandler.mk r.path r.service h) (buildHandler parseURL svc)
      = some (routeHandler.mk r.path r.service h)
    rw [hb]
    rfl

/-- Claim C8 amended-claim witness: with one resolvable load-balanced service,
one resolvable single-host service, one route referencing an undeclared
service and one route whose declared service has no host and no servers, the
two resolvable routes are compiled and nothing else is. -/
theorem C8_unknown_service_dropped_witness :
    ((newRouter (fun u => some u)
      (Config.mk [] none
        [Service.mk "a" "" 0 "round-robin" ["u1", "u2"], Service.mk "b" "localhost" 3000 "" [],
          Service.mk "e" "" 0 "" []]
        [Route.mk "/api/" "a", Route.mk "/web/" "b", Route.mk "/gone/" "missing",
          Route.mk "/empty/" "e"])).routes =
      [routeHandler.mk "/api/" "a" (Handler.loadBalancer ["u1", "u2"]),
        routeHandler.mk "/web/" "b" (Handler.single "http://localhost:3000")])
    ∧ routeHandler.mk "/api/" "a" (Handler.loadBalancer ["u1", "u2"])
        ∈ (newRouter (fun u => some u)
          (Config.mk [] none
            [Service.mk "a" "" 0 "round-robin" ["u1", "u2"], Service.mk "b" "localhost" 3000 "" [],
              Service.mk "e" "" 0 "" []]
            [Route.mk "/api/" "a", Route.mk "/web/" "b", Route.mk "/gone/" "missing",
              Route.mk "/empty/" "e"])).routes := by
  refine ⟨by decide, ?_⟩
  exact (C8_unknown_service_dropped (fun u => some u)
      (Config.mk [] none
        [Service.mk "a" "" 0 "round-robin" ["u1", "u2"], Service.mk "b" "localhost" 3000 "" [],
          Service.mk "e" "" 0 "" []]
        [Route.mk "/api/" "a", Route.mk "/web/" "b", Route.mk "/gone/" "missing",
          Route.mk "/empty/" "e"])).2
    (Route.mk "/api/" "a") (by decide)
    (Service.mk "a" "" 0 "round-robin" ["u1", "u2"])
    (Handler.loadBalancer ["u1", "u2"]) (by decide) (by decide)

/-- The three candidate config locations probed in order by
loadAndServeConfig and by the hot-reload goroutine: working directory,
user-scope path under HOME, system-wide path. -/
def configPaths (home : String) : List String :=
  ["./config.yaml", home ++ "/.config/clara/config.yaml", "/etc/clara/config.yaml"]

/-- The probing loop of loadAndServeConfig: os.ReadFile each candidate in
order, stop at the first success, returning the found path and its data. -/
def probeConfig (fs : String → Option String) : List String → Option (String × String)
  | [] => none
  | p :: rest =>
    match fs p with
    | some d => some (p, d)
    | none => probeConfig fs rest

/-- The process-wide App state: the atomic cell holding the published Router
(none before the first successful load). -/
structure AppState where
  router : Option Router
deriving DecidableEq, Repr

/-- The tail of loadAndServeConfig: yaml.Unmarshal the data, and only on
success build a new Router and store it in the cell; on a parse error return
the error with the cell untouched. -/
def parseAndStore (parseYaml : String → Except String Config)
    (parseURL : String → Option String) (data : String) (app : AppState) :
    AppState × Option String :=
  match parseYaml data with
  | Except.error e => (app, some ("error parsing config: " ++ e))
  | Except.ok cfg => (AppState.mk (some (newRouter parseURL cfg)), none)

/-- Go loadAndServeConfig: probe the three candidate paths; when none exists,
fall back to the embedded default document (itself fallible); then parse and
publish.  The file system, the embedded asset and the YAML parser are external
collaborators, passed in as functions. -/
def loadAndServeConfig (fs : String → Option String) (embeddedDefault : Option String)
    (parseYaml : String → Except String Config) (parseURL : String → Option String)
    (home : String) (app : AppState) : AppState × Option String :=
  match probeConfig fs (configPaths home) with
  | some pd => parseAndStore parseYaml parseURL pd.2 app
  | none =>
    match embeddedDefault with
    | none => (app, some "failed to load embedded default config")
    | some data => parseAndStore parseYaml parseURL data app

/-- The hot-reload goroutine's startup scan: os.Stat each candidate path in
order and watch the first one that exists. -/
def findWatchPath (statOk : String → Bool) (home : String) : Option String :=
  (configPaths home).find? statOk

/-- The goroutine returns immediately — the 3-second polling loop is never
entered — exactly when no candidate path exists. -/
def pollingEnabled (statOk : String → Bool) (home : String) : Bool :=
  (findWatchPath statOk home).isSome

/-- parseAndStore either reports an error and leaves the cell untouched, or
publishes the Router compiled from a fully parsed Config. -/
lemma parseAndStore_spec (parseYaml : String → Except String Config)
    (parseURL : String → Option String) (data : String) (app : AppState) :
    (∀ e, (parseAndStore parseYaml parseURL data app).2 = some e →
      (parseAndStore parseYaml parseURL data app).1 = app)
    ∧ ((parseAndStore parseYaml parseURL data app).1 = app
      ∨ ∃ cfg, (parseAndStore parseYaml parseURL data app).1.router
          = some (newRouter parseURL cfg)) := by
  unfold parseAndStore
  cases hy : parseYaml data with
  | error e => exact ⟨fun e1 _ => rfl, Or.inl rfl⟩
  | ok cfg =>
    constructor
    · intro e1 h1
      exact absurd h1 (by simp)
    · exact Or.inr ⟨cfg, rfl⟩

/-- Claim C6: after a successful initial load (some table r0 is published), a
reload attempt that fails — reading and parsing having been exhausted with an
error reported — leaves the very same table published; and in every case the
cell afterwards holds either the previous table or a Router freshly compiled
from a completely parsed Config, never partial state. -/
theorem C6_failed_reload_keeps_table (fs : String → Option String)
    (embeddedDefault : Option String) (parseYaml : String → Except String Config)
    (parseURL : String → Option String) (home : String) (app : AppState)
    (r0 : Router) (hpub : app.router = some r0) :
    (∀ e, (loadAndServeConfig fs embeddedDefault parseYaml parseURL home app).2 = some e →
      (loadAndServeConfig fs embeddedDefault parseYaml parseURL home app).1.router = some r0)
    ∧ ((loadAndServeConfig fs embeddedDefault parseYaml parseURL home app).1.router = some r0
      ∨ ∃ cfg, (loadAndServeConfig fs embeddedDefault parseYaml parseURL home app).1.router
          = some (newRouter parseURL cfg)) := by
  unfold loadAndServeConfig
  cases hp : probeConfig fs (configPaths home) with
  | some pd =>
    have hps := parseAndStore_spec parseYaml parseURL pd.2 app
    constructor
    · intro e he
      rw [hps.1 e he, hpub]
    · rcases hps.2 with h | ⟨cfg, h⟩
      · exact Or.inl (by rw [h, hpub])
      · exact Or.inr ⟨cfg, h⟩
  | none =>
    cases embeddedDefault with
    | none => exact ⟨fun e _ => hpub, Or.inl hpub⟩
    | some data =>
      have hps := parseAndStore_spec parseYaml parseURL data app
      constructor
      · intro e he
        rw [hps.1 e he, hpub]
      · rcases hps.2 with h | ⟨cfg, h⟩
        · exact Or.inl (by rw [h, hpub])
        · exact Or.inr ⟨cfg, h⟩

/-- Claim C6 witness: with a published empty table, a config source whose data
never parses makes the reload report the parse error and keep the empty table
published. -/
theorem C6_failed_reload_keeps_table_witness :
    (loadAndServeConfig (fun _ => some "bad") none (fun _ => Except.error "boom")
      (fun u => some u) "/home/u" (AppState.mk (some (Router.mk [] [])))).2
      = some "error parsing config: boom"
    ∧ (loadAndServeConfig (fun _ => some "bad") none (fun _ => Except.error "boom")
        (fun u => some u) "/home/u" (AppState.mk (some (Router.mk [] [])))).1.router
        = some (Router.mk [] []) := by
  refine ⟨by decide, ?_⟩
  exact (C6_failed_reload_keeps_table (fun _ => some "bad") none
      (fun _ => Except.error "boom") (fun u => some u) "/home/u"
      (AppState.mk (some (Router.mk [] []))) (Router.mk [] []) rfl).1
    "error parsing config: boom" (by decide)

/-- Claim C7: startup probes, in order, the working-directory path, the
user-scope path and the system-wide path; the first existing file wins; when
none of the three exists the polling loop never starts and the embedded
built-in default document is what gets parsed and published. -/
theorem C7_config_source_resolution (fs : String → Option String) (home : String) :
    (∀ d, fs "./config.yaml" = some d →
      probeConfig fs (configPaths home) = some ("./config.yaml", d))
    ∧ (∀ d, fs "./config.yaml" = none →
        fs (home ++ "/.config/clara/config.yaml") = some d →
        probeConfig fs (configPaths home)
          = some (home ++ "/.config/clara/config.yaml", d))
    ∧ (∀ d, fs "./config.yaml" = none →
        fs (home ++ "/.config/clara/config.yaml") = none →
        fs "/etc/clara/config.yaml" = some d →
        probeConfig fs (configPaths home) = some ("/etc/clara/config.yaml", d))
    ∧ ((∀ p ∈ configPaths home, fs p = none) →
        pollingEnabled (fun p => (fs p).isSome) home = false
        ∧ ∀ (parseYaml : String → Except String Config)
            (parseURL : String → Option String) (app : AppState) (data : String)
            (cfg : Config), parseYaml data = Except.ok cfg →
            (loadAndServeConfig fs (some data) parseYaml parseURL home app).1.router
              = some (newRouter parseURL cfg)) := by
  refine ⟨?_, ?_, ?_, ?_⟩
  · intro d h1
    simp [probeConfig, configPaths, h1]
  · intro d h1 h2
    simp [probeConfig, configPaths, h1, h2]
  · intro d h1 h2 h3
    simp [probeConfig, configPaths, h1, h2, h3]
  · intro hall
    have h1 : fs "./config.yaml" = none := hall _ (by simp [configPaths])
    have h2 : fs (home ++ "/.config/clara/config.yaml") = none :=
      hall _ (by simp [configPaths])
    have h3 : fs "/etc/clara/config.yaml" = none := hall _ (by simp [configPaths])
    constructor
    · simp [pollingEnabled, findWatchPath, configPaths, List.find?, h1, h2, h3]
    · intro parseYaml parseURL app data cfg hok
      have hprobe : probeConfig fs (configPaths home) = none := by
        simp [probeConfig, configPaths, h1, h2, h3]
      simp [loadAndServeConfig, hprobe, parseAndStore, hok]

/-- Claim C7 witness: with an empty file system, polling is disabled and the
embedded default document is what gets compiled and published; with a file
present in the working directory, that file wins the probe. -/
theorem C7_config_source_resolution_witness :
    pollingEnabled (fun p => ((fun _ : String => (none : Option String)) p).isSome)
      "/home/u" = false
    ∧ (loadAndServeConfig (fun _ => none) (some "defaultdoc")
        (fun _ => Except.ok (Config.mk [] none [] [])) (fun u => some u) "/home/u"
        (AppState.mk none)).1.router
        = some (newRouter (fun u => some u) (Config.mk [] none [] []))
    ∧ probeConfig (fun _ => some "data") (configPaths "/home/u")
        = some ("./config.yaml", "data") := by
  have h := C7_config_source_resolution (fun _ => (none : Option String)) "/home/u"
  have h4 := h.2.2.2 (fun p _ => rfl)
  refine ⟨h4.1, h4.2 (fun _ => Except.ok (Config.mk [] none [] [])) (fun u => some u)
    (AppState.mk none) "defaultdoc" (Config.mk [] none [] []) rfl, ?_⟩
  exact (C7_config_source_resolution (fun _ => some "data") "/home/u").1 "data" rfl

/-- One write operation the inner handler performs on the wrapping response
writer: an explicit WriteHeader call, or a body Write (which never touches the
recorded status field of the wrapper). -/
inductive WriterOp where
  | writeHeader (code : Nat) : WriterOp
  | write (body : String) : WriterOp
deriving DecidableEq, Repr

/-- Go struct responseWriter: the wrapper recording the status code (the
embedded underlying writer is outside the model). -/
structure responseWriter where
  statusCode : Nat
deriving DecidableEq, Repr

/-- Go NewResponseWriter: the recorded status starts at http.StatusOK = 200. -/
def NewResponseWriter : responseWriter := responseWriter.mk 200

/-- The effect of one handler operation on the wrapper: WriteHeader overwrites
the recorded status; Write leaves it as is. -/
def applyOp (w : responseWriter) : WriterOp → responseWriter
  | WriterOp.writeHeader code => responseWriter.mk code
  | WriterOp.write _ => w

/-- Running the inner handler: its operations applied to the wrapper in order. -/
def runHandler (w : responseWriter) (ops : List WriterOp) : responseWriter :=
  ops.foldl applyOp w

/-- A labeled event emitted to the metrics collaborator: one duration
observation keyed by service and path, or one request-completed count keyed by
service, path and status code (rendered as a string by strconv.Itoa). -/
inductive MetricEvent where
  | duration (service : String) (path : String) : MetricEvent
  | counter (service : String) (path : String) (code : String) : MetricEvent
deriving DecidableEq, Repr

def isCounterEvent : MetricEvent → Bool
  | MetricEvent.counter _ _ _ => true
  | MetricEvent.duration _ _ => false

def isDurationEvent : MetricEvent → Bool
  | MetricEvent.duration _ _ => true
  | MetricEvent.counter _ _ _ => false

def isWriteHeaderOp : WriterOp → Bool
  | WriterOp.writeHeader _ => true
  | WriterOp.write _ => false

/-- The label pair computed by metricsMiddleware: both default to unmatched;
when a Router is published and its findBestMatch returns an entry, the entry's
service and path are used. -/
def metricsLabels (published : Option Router) (reqPath : String) : String × String :=
  match published with
  | none => ("unmatched", "unmatched")
  | some router =>
    match router.findBestMatch reqPath with
    | none => ("unmatched", "unmatched")
    | some m => (m.service, m.path)

/-- Go metricsMiddleware: wrap the writer, resolve the labels against the
currently published Router, run the inner handler, then emit exactly one
duration observation and one counter increment. -/
def metricsMiddleware (published : Option Router) (reqPath : String)
    (handlerOps : List WriterOp) : List MetricEvent :=
  let res := runHandler NewResponseWriter handlerOps
  let labels := metricsLabels published reqPath
  [MetricEvent.duration labels.1 labels.2,
    MetricEvent.counter labels.1 labels.2 (toString res.statusCode)]

/-- Claim C9: every request produces exactly one counter event and exactly one
duration event; their service and path labels come from re-running
findBestMatch against the currently published table, and are the sentinel
unmatched when no table is published or no route matches. -/
theorem C9_metrics_exactly_one_pair (published : Option Router) (reqPath : String)
    (handlerOps : List WriterOp) :
    ((metricsMiddleware published reqPath handlerOps).countP
        (fun e => isCounterEvent e) = 1)
    ∧ ((metricsMiddleware published reqPath handlerOps).countP
        (fun e => isDurationEvent e) = 1)
    ∧ (published = none →
        metricsMiddleware published reqPath handlerOps
          = [MetricEvent.duration "unmatched" "unmatched",
            MetricEvent.counter "unmatched" "unmatched"
              (toString (runHandler NewResponseWriter handlerOps).statusCode)])
    ∧ (∀ router, published = some router → router.findBestMatch reqPath = none →
        metricsMiddleware published reqPath handlerOps
          = [MetricEvent.duration "unmatched" "unmatched",
            MetricEvent.counter "unmatched" "unmatched"
              (toString (runHandler NewResponseWriter handlerOps).statusCode)])
    ∧ (∀ router m, published = some router → router.findBestMatch reqPath = some m →
        metricsMiddleware published reqPath handlerOps
          = [MetricEvent.duration m.service m.path,
            MetricEvent.counter m.service m.path
              (toString (runHandler NewResponseWriter handlerOps).statusCode)]) := by
  refine ⟨?_, ?_, ?_, ?_, ?_⟩
  · simp [metricsMiddleware, List.countP_cons, isCounterEvent, isDurationEvent]
  · simp [metricsMiddleware, List.countP_cons, isCounterEvent, isDurationEvent]
  · intro hnone
    subst hnone
    rfl
  · intro router hr hm
    subst hr
    simp only [metricsMiddleware, metricsLabels, hm]
  · intro router m hr hm
    subst hr
    simp only [metricsMiddleware, metricsLabels, hm]

/-- Claim C9 witness: with a published one-entry table, a request under the
matching declared path emits the duration and counter events labeled with that
entry's service and path, one of each. -/
theorem C9_metrics_exactly_one_pair_witness :
    ((metricsMiddleware
        (some (Router.mk [routeHandler.mk "/api/" "a" (Handler.single "u1")] []))
        "/api/ping" [WriterOp.writeHeader 502]).countP
        (fun e => isCounterEvent e) = 1)
    ∧ ((metricsMiddleware
        (some (Router.mk [routeHandler.mk "/api/" "a" (Handler.single "u1")] []))
        "/api/ping" [WriterOp.writeHeader 502]).countP
        (fun e => isDurationEvent e) = 1)
    ∧ (metricsMiddleware
        (some (Router.mk [routeHandler.mk "/api/" "a" (Handler.single "u1")] []))
        "/api/ping" [WriterOp.writeHeader 502]
          = [MetricEvent.duration "a" "/api/",
            MetricEvent.counter "a" "/api/"
              (toString (runHandler NewResponseWriter
                [WriterOp.writeHeader 502]).statusCode)]) := by
  have h := C9_metrics_exactly_one_pair
    (some (Router.mk [routeHandler.mk "/api/" "a" (Handler.single "u1")] []))
    "/api/ping" [WriterOp.writeHeader 502]
  exact ⟨h.1, h.2.1,
    h.2.2.2.2 (Router.mk [routeHandler.mk "/api/" "a" (Handler.single "u1")] [])
      (routeHandler.mk "/api/" "a" (Handler.single "u1")) rfl (by decide)⟩

/-- If the inner handler never calls WriteHeader, the wrapper is left exactly
as initialized. -/
lemma runHandler_no_writeHeader :
    ∀ (ops : List WriterOp) (w : responseWriter),
      (∀ op ∈ ops, isWriteHeaderOp op = false) → runHandler w ops = w := by
  intro ops
  induction ops with
  | nil =>
    intro w _
    rfl
  | cons op rest ih =>
    intro w hall
    cases op with
    | writeHeader code =>
      exact absurd (hall _ (List.mem_cons_self _ _)) (by simp [isWriteHeaderOp])
    | write body =>
      show runHandler (applyOp w (WriterOp.write body)) rest = w
      exact ih w (fun op1 h1 => hall op1 (List.mem_cons_of_mem _ h1))

/-- Claim C10: the wrapping response writer initializes its recorded status to
200 and changes it only on an explicit WriteHeader call, so for a request
whose inner handler only writes body bytes and never calls WriteHeader, the
recorded status is 200 and the emitted counter event carries status label
200. -/
theorem C10_default_status_200 (published : Option Router) (reqPath : String)
    (handlerOps : List WriterOp)
    (hnowh : ∀ op ∈ handlerOps, isWriteHeaderOp op = false) :
    NewResponseWriter.statusCode = 200
    ∧ (∀ (w : responseWriter) (body : String),
        (applyOp w (WriterOp.write body)).statusCode = w.statusCode)
    ∧ (∀ (w : responseWriter) (code : Nat),
        (applyOp w (WriterOp.writeHeader code)).statusCode = code)
    ∧ (runHandler NewResponseWriter handlerOps).statusCode = 200
    ∧ (∀ s p c, MetricEvent.counter s p c ∈ metricsMiddleware published reqPath handlerOps →
        c = "200") := by
  have h200 : (runHandler NewResponseWriter handlerOps).statusCode = 200 := by
    rw [runHandler_no_writeHeader handlerOps NewResponseWriter hnowh]
    rfl
  refine ⟨rfl, fun w body => rfl, fun w code => rfl, h200, ?_⟩
  intro s p c hc
  simp only [metricsMiddleware, List.mem_cons, List.not_mem_nil, or_false] at hc
  rcases hc with h | h
  · exact absurd h (by simp)
  · have hcode := congrArg (fun e => match e with
      | MetricEvent.counter _ _ c1 => c1
      | MetricEvent.duration _ _ => "") h
    simp only at hcode
    rw [hcode, h200]
    decide

/-- Claim C10 witness: a handler that only writes a body leaves the recorded
status at 200 and the counter event label at 200. -/
theorem C10_default_status_200_witness :
    (runHandler NewResponseWriter [WriterOp.write "hello"]).statusCode = 200
    ∧ (MetricEvent.counter "unmatched" "unmatched" "200"
        ∈ metricsMiddleware none "/x" [WriterOp.write "hello"] → "200" = "200") := by
  have h := C10_default_status_200 none "/x" [WriterOp.write "hello"] (by decide)
  exact ⟨h.2.2.2.1, h.2.2.2.2 "unmatched" "unmatched" "200"⟩

end Clara
